import Mathlib

/-!
Verification of the auditory looming task (src/main.py, src/stimulus.py)
against its natural-language specification.

The per-frame tracking loop, the geometric containment test, the calibration
loop and the audio-worker loops are shallowly embedded below.  Python floats
are modelled as exact rationals (reals for the cosine window); frames are
abstracted to the data the loop actually consumes: an `Option Bool` holding
`none` when the tracker update failed on a frame and `some b` when it
succeeded with containment state `b`.  Reading a Python variable before any
assignment (a `NameError` at runtime) is modelled with `Except`, the error
payload carrying the loop state at the moment of the crash.
-/

/-- State of the `__main__` tracking loop of src/main.py across frames:
`in_roi` and `prev_state` are `none` while the corresponding Python variable
is still unassigned, `triggers` records the frame indices at which
`play_stim.set()` was called, `records` the containment values written to the
csv (one per successfully tracked frame), and `idx` the current frame index. -/
structure LoopState where
  in_roi : Option Bool
  prev_state : Option Bool
  triggers : List Nat
  records : List Bool
  idx : Nat
deriving DecidableEq, Repr

/-- Loop state before the first frame: neither `in_roi` nor `prev_state`
has been assigned (src/main.py declares neither before the loop). -/
def initState : LoopState := ⟨none, none, [], [], 0⟩

/-- One iteration of the tracking loop body (src/main.py lines 196-218) on a
frame abstracted to `none` (tracker update failed) or `some b` (update
succeeded, containment state `b`).  On success the csv record is written and
`in_roi` assigned (lines 205-213); then line 215 evaluates
`in_roi and in_roi != prev_state` — reading `in_roi` when unassigned, or
`prev_state` when `in_roi` is `True` and `prev_state` unassigned, raises
`NameError`, modelled as `Except.error` carrying the state at the crash;
Python's `and` short-circuits, so `in_roi = False` never reads `prev_state`.
Line 218 then assigns `prev_state = in_roi`. -/
def processFrame (s : LoopState) (frame : Option Bool) : Except LoopState LoopState :=
  let s1 : LoopState :=
    match frame with
    | some b => { s with in_roi := some b, records := s.records ++ [b] }
    | none => s
  match s1.in_roi with
  | none => Except.error s1
  | some false => Except.ok { s1 with prev_state := some false, idx := s1.idx + 1 }
  | some true =>
    match s1.prev_state with
    | none => Except.error s1
    | some p =>
      Except.ok { s1 with
        triggers := if p = false then s1.triggers ++ [s1.idx] else s1.triggers,
        prev_state := some true,
        idx := s1.idx + 1 }

/-- Runs the tracking loop over a list of abstracted frames, stopping at the
first `NameError`; the `Bool` is `true` when the loop crashed. -/
def runLoop (s : LoopState) : List (Option Bool) → LoopState × Bool
  | [] => (s, false)
  | f :: rest =>
    match processFrame s f with
    | Except.ok s2 => runLoop s2 rest
    | Except.error s2 => (s2, true)

/-- Modelled from the spec: the positions of the outside→inside rising edges
of a containment-state sequence, the previous state before position `idx`
being `prev`; the spec (design note on the initial previous-state) takes the
state before the first frame to be `outside` (`false`). -/
def risingEdgesAux (prev : Bool) (idx : Nat) : List Bool → List Nat
  | [] => []
  | b :: rest =>
    (if prev = false ∧ b = true then [idx] else []) ++ risingEdgesAux b (idx + 1) rest

/-- Modelled from the spec: rising-edge positions of a state sequence with
initial previous state `outside`. -/
def risingEdges (states : List Bool) : List Nat := risingEdgesAux false 0 states

/-- Cross product used to decide on which side of the directed edge `a → b`
the point `p` lies. -/
def crossProd (a b p : ℚ × ℚ) : ℚ :=
  (b.1 - a.1) * (p.2 - a.2) - (b.2 - a.2) * (p.1 - a.1)

/-- Models `cv.pointPolygonTest(corners, p, False)` for the convex
quadrilateral `c0 c1 c2 c3` in the vertex order used by `point_inside`:
`1` when `p` is strictly inside, `0` when `p` lies on an edge, `-1` when `p`
is outside (OpenCV's sign convention with `measureDist=False`). -/
def pointPolygonTest (c0 c1 c2 c3 p : ℚ × ℚ) : Int :=
  if 0 < crossProd c0 c1 p ∧ 0 < crossProd c1 c2 p ∧
      0 < crossProd c2 c3 p ∧ 0 < crossProd c3 c0 p then 1
  else if 0 ≤ crossProd c0 c1 p ∧ 0 ≤ crossProd c1 c2 p ∧
      0 ≤ crossProd c2 c3 p ∧ 0 ≤ crossProd c3 c0 p then 0
  else -1

/-- `point_inside(rect, point)` of src/main.py lines 25-39: builds the four
corners `(x,y), (x+w,y), (x+w,y+h), (x,y+h)` of `rect = (x,y,w,h)`, applies
the polygon containment test, and returns `(True, (255,0,0))` when the test
is nonnegative and `(False, (0,255,0))` otherwise. -/
def point_inside (rect : ℚ × ℚ × ℚ × ℚ) (point : ℚ × ℚ) : Bool × Nat × Nat × Nat :=
  if 0 ≤ pointPolygonTest (rect.1, rect.2.1)
      (rect.1 + rect.2.2.1, rect.2.1)
      (rect.1 + rect.2.2.1, rect.2.1 + rect.2.2.2)
      (rect.1, rect.2.1 + rect.2.2.2) point
  then (true, 255, 0, 0) else (false, 0, 255, 0)

/-- Observable events of the `calibrate` loop of src/stimulus.py: a blocking
write of the buffer synthesized from the current amplitude (`stream.write(wave)`,
where `wave = noise_generator(amp, 5, 44100)` at that point), and a read of
one operator input, already abstracted to `none` (not parseable as a float,
including empty input) or `some a` (parsed value `a`). -/
inductive CalEvent where
  | write (amp : ℚ)
  | read (inp : Option ℚ)
deriving DecidableEq, Repr

/-- `calibrate(amplitude)` of src/stimulus.py lines 32-58, run against a list
of operator inputs: each iteration writes the buffer for the current
amplitude, then reads an input; an unparseable input returns the current
amplitude, a parsed input `a` replaces the amplitude and re-synthesizes the
buffer.  Returns the event trace and the result, `none` when the input list
was exhausted (at runtime `input()` would raise `EOFError`). -/
def calibrateRun (amplitude : ℚ) : List (Option ℚ) → List CalEvent × Option ℚ
  | [] => ([CalEvent.write amplitude], none)
  | none :: _ => ([CalEvent.write amplitude, CalEvent.read none], some amplitude)
  | some a :: rest =>
    (CalEvent.write amplitude :: CalEvent.read (some a) :: (calibrateRun a rest).1,
      (calibrateRun a rest).2)

/-- One sample of `noise_generator(amplitude, duration, fs)` of
src/stimulus.py lines 13-29, the Gaussian noise array abstracted to an
arbitrary function `noise`.  The code first scales the noise by the
amplitude, overwrites the first quarter-second with
`linspace(0, amplitude, window)` and the last quarter-second with its
reversal, then multiplies the whole buffer by the noise once more; the end
assignment happens after the start assignment, so it wins on the (never
occurring) overlap.  For the sample rate the program uses (44100),
`fs / 4` equals `int(fs * 0.25) = 11025` exactly in IEEE arithmetic. -/
def noiseGenSample {α : Type} [LinearOrderedField α] (amplitude : α) (duration fs : Nat)
    (noise : Nat → α) (i : Nat) : α :=
  if fs * duration - fs / 4 ≤ i then
    amplitude * ((fs * duration - 1 - i : Nat) : α) / ((fs / 4 - 1 : Nat) : α) * noise i
  else if i < fs / 4 then
    amplitude * (i : α) / ((fs / 4 - 1 : Nat) : α) * noise i
  else amplitude * noise i * noise i

/-- The buffer returned by `noise_generator(amplitude, duration, fs)`:
`int(duration * fs)` samples. -/
def noiseGenList {α : Type} [LinearOrderedField α] (amplitude : α) (duration fs : Nat)
    (noise : Nat → α) : List α :=
  List.ofFn (fun i : Fin (fs * duration) => noiseGenSample amplitude duration fs noise i)

/-- The envelope component of `wave_generator(base, peak)` of src/stimulus.py
lines 61-78: one period is `linspace(base, peak, int(fs*0.4))` followed by
`base` repeated `int(fs*0.6)` times, and the period is tiled 10 times.  With
`fs = 44100`, `int(fs*0.4)` and `int(fs*0.6)` evaluate to exactly 17640 and
26460 in IEEE arithmetic, so the period has 44100 samples and
`tile(period, 10)[i] = period[i % 44100]`. -/
def waveEnvelope (base peak : ℚ) (i : Nat) : ℚ :=
  if i % 44100 < 17640 then base + ((i % 44100 : Nat) : ℚ) * (peak - base) / 17639
  else base

/-- The stimulus buffer returned by `wave_generator(base, peak)`: the tiled
envelope multiplied pointwise by the noise array of `fs * duration = 441000`
samples. -/
def waveGenList (base peak : ℚ) (noise : Nat → ℚ) : List ℚ :=
  List.ofFn (fun i : Fin 441000 => waveEnvelope base peak i * noise i)

/-- `np.hanning(22050)[k] = 0.5 - 0.5*cos(2*pi*k/(22050-1))`, the window used
on the background buffer in src/main.py lines 138-142. -/
noncomputable def hanningVal (k : Nat) : ℝ :=
  1 / 2 - Real.cos (2 * Real.pi * k / 22049) / 2

/-- The background buffer after the windowing of src/main.py lines 136-142:
`background = noise_generator(min_amp, 50, 44100)` (2205000 samples), its
first `hanning_window//2 = 11025` samples multiplied by `hanning[:11025]` and
its last 11025 samples multiplied by `rev_hanning[:11025]`, i.e. sample
`i ≥ 2205000 - 11025 = 2193975` is multiplied by
`hanning[22049 - (i - 2193975)]`. -/
noncomputable def windowedBackground (min_amp : ℝ) (noise : Nat → ℝ) (i : Nat) : ℝ :=
  if i < 11025 then noiseGenSample min_amp 50 44100 noise i * hanningVal i
  else if 2193975 ≤ i then
    noiseGenSample min_amp 50 44100 noise i * hanningVal (22049 - (i - 2193975))
  else noiseGenSample min_amp 50 44100 noise i

/-- State of the background audio worker `play_sound` of src/main.py lines
63-77: `checks` counts the evaluations of `end_stream.is_set()` at the top of
the `while` loop, `writes` the completed blocking writes of the background
buffer, `terminated` whether the function has returned, and `deviceOpen`
whether the pyaudio handle opened before the loop is still open. -/
structure BgState where
  checks : Nat
  writes : Nat
  terminated : Bool
  deviceOpen : Bool
deriving DecidableEq, Repr

/-- `play_sound` right after `p.open(...)`: no checks or writes yet, device
open. -/
def bgInit : BgState := ⟨0, 0, false, true⟩

/-- One iteration of `play_sound`'s loop: `endSet j` is the value
`end_stream.is_set()` returns at the j-th check.  While the sticky end signal
reads false the worker performs one more full blocking write; on the first
check that reads true it stops the stream, closes it, terminates pyaudio and
returns.  A terminated worker does nothing. -/
def playSoundStep (endSet : Nat → Bool) (s : BgState) : BgState :=
  if s.terminated then s
  else if endSet s.checks then ⟨s.checks + 1, s.writes, true, false⟩
  else ⟨s.checks + 1, s.writes + 1, false, true⟩

/-- State of the stimulus audio worker `trigger_stim` of src/main.py lines
42-60: `time` is an abstract counter of signal observations, `plays` the
completed one-shot stimulus playbacks, `terminated` whether the worker broke
out of its loop, `deviceOpen` whether its pyaudio handle is still open. -/
structure StimState where
  time : Nat
  plays : Nat
  terminated : Bool
  deviceOpen : Bool
deriving DecidableEq, Repr

/-- `trigger_stim` right after `p = pyaudio.PyAudio()`. -/
def stimInit : StimState := ⟨0, 0, false, true⟩

/-- One observation step of `trigger_stim`: `trig t` is whether the
play-stimulus event is set at observation `t`, `endSet t` whether the sticky
end signal is set then.  While no trigger is set the worker stays blocked in
`play_stim.wait()` (only time advances); when a trigger is set it opens a
stream, writes the whole stimulus buffer, closes the stream, clears the
trigger, and only then consults `end_stream.is_set()`: if set it terminates
pyaudio and breaks, otherwise it loops back to waiting.  The end signal is
never consulted while blocked waiting for a trigger.  A terminated worker
does nothing. -/
def triggerStimStep (trig endSet : Nat → Bool) (s : StimState) : StimState :=
  if s.terminated then s
  else if trig s.time then
    if endSet s.time then ⟨s.time + 1, s.plays + 1, true, false⟩
    else ⟨s.time + 1, s.plays + 1, false, s.deviceOpen⟩
  else ⟨s.time + 1, s.plays, false, s.deviceOpen⟩

/-! ## Theorems -/

/-- Helper: once one frame has completed (`in_roi` and `prev_state` both
assigned, and equal as lines 215-218 leave them), the tracking loop over
successfully tracked frames never crashes and appends to `triggers` exactly
the rising-edge positions of the remaining state sequence. -/
theorem runLoop_tracked :
    ∀ (states : List Bool) (b : Bool) (T : List Nat) (R : List Bool) (k : Nat),
      (runLoop ⟨some b, some b, T, R, k⟩ (states.map some)).2 = false
      ∧ (runLoop ⟨some b, some b, T, R, k⟩ (states.map some)).1.triggers
          = T ++ risingEdgesAux b k states := by
  intro states
  induction states with
  | nil =>
    intro b T R k
    constructor
    · rfl
    · simp [runLoop, risingEdgesAux]
  | cons c rest ih =>
    intro b T R k
    cases c with
    | false =>
      have h := ih false T (R ++ [false]) (k + 1)
      constructor
      · simpa [runLoop, processFrame] using h.1
      · have h2 := h.2
        cases b <;>
          simp [runLoop, processFrame, risingEdgesAux, h2]
    | true =>
      cases b with
      | false =>
        have h := ih true (T ++ [k]) (R ++ [true]) (k + 1)
        constructor
        · simpa [runLoop, processFrame] using h.1
        · have h2 := h.2
          simp [runLoop, processFrame, risingEdgesAux, h2]
      | true =>
        have h := ih true T (R ++ [true]) (k + 1)
        constructor
        · simpa [runLoop, processFrame] using h.1
        · have h2 := h.2
          simp [runLoop, processFrame, risingEdgesAux, h2]

/-- C1 (counterexample): on the containment-state sequence
[inside, outside, inside] the tracking loop raises a `NameError` on the very
first frame (line 215 reads the unassigned `prev_state`), so no trigger is
ever emitted — although the sequence contains an outside→inside transition
at position 2 at which the claim requires a trigger. -/
theorem edge_detection_crashes_on_initial_inside :
    (runLoop initState [some true, some false, some true]).1.triggers = []
    ∧ (runLoop initState [some true, some false, some true]).2 = true := by
  constructor <;> rfl

/-- C1 (amended): for every containment-state sequence whose first state is
`outside` (so that the unassigned `prev_state` is never read, the previous
state being effectively initialized to `outside`), the tracking loop never
crashes and sets the play-stimulus signal exactly at the outside→inside
transition positions — never on inside→outside transitions nor on frames
whose state equals the previous one; in particular the sequence
[outside, outside, inside, inside, outside, inside] emits exactly two
triggers, at positions 2 and 5. -/
theorem edge_detection_rising_edges :
    (∀ states : List Bool, states.head? = some false →
      (runLoop initState (states.map some)).2 = false
      ∧ (runLoop initState (states.map some)).1.triggers = risingEdges states)
    ∧ (runLoop initState ([false, false, true, true, false, true].map some)).1.triggers
        = [2, 5] := by
  constructor
  · intro states hhead
    cases states with
    | nil => simp at hhead
    | cons c rest =>
      have hc : c = false := by simpa using hhead
      subst hc
      have h := runLoop_tracked rest false [] [false] 1
      constructor
      · simpa [runLoop, processFrame, initState] using h.1
      · have h2 := h.2
        simp [runLoop, processFrame, initState, risingEdges, risingEdgesAux, h2]
  · rfl

/-- Witness for the amended C1 at the sequence from the spec. -/
theorem edge_detection_rising_edges_witness :
    (([false, false, true, true, false, true] : List Bool).head? = some false)
    ∧ ((runLoop initState (([false, false, true, true, false, true] : List Bool).map some)).2
          = false
      ∧ (runLoop initState
            (([false, false, true, true, false, true] : List Bool).map some)).1.triggers
          = risingEdges [false, false, true, true, false, true]) :=
  ⟨rfl, edge_detection_rising_edges.1 [false, false, true, true, false, true] rfl⟩

/-- C2: the previous containment state is NOT initialized before first use —
on the very first successfully tracked frame whose state is `inside`, line
215 of src/main.py reads the unassigned `prev_state` and the loop crashes
with a `NameError` (no trigger emitted), contradicting the claim that the
comparison never reads an unassigned variable. -/
theorem prev_state_uninitialized_crash :
    (runLoop initState [some true]).2 = true
    ∧ (runLoop initState [some true]).1.triggers = []
    ∧ (runLoop initState [some true]).1.prev_state = none := by
  refine ⟨rfl, rfl, rfl⟩

/-- C4: a tracker failure on the very first frame does NOT merely skip the
frame — line 215 reads the then-unassigned `in_roi` and the loop crashes
with a `NameError`, ending the session, contradicting the claim that tracker
failure on any frame, including the first, never raises an error. -/
theorem tracker_failure_first_frame_crash :
    (runLoop initState [none]).2 = true
    ∧ (runLoop initState [none]).1.records = []
    ∧ (runLoop initState [none]).1.triggers = [] := by
  refine ⟨rfl, rfl, rfl⟩

/-- C3: for every axis-aligned rectangle with positive width and height,
`point_inside` returns `True` exactly on the closed rectangle: strictly
inside or on the boundary gives `True`, strictly outside gives `False`. -/
theorem point_inside_closed_rect (x y w h px py : ℚ) (hw : 0 < w) (hh : 0 < h) :
    (point_inside (x, y, w, h) (px, py)).1 = true ↔
      x ≤ px ∧ px ≤ x + w ∧ y ≤ py ∧ py ≤ y + h := by
  have e1 : crossProd (x, y) (x + w, y) (px, py) = w * (py - y) := by
    simp [crossProd]
  have e2 : crossProd (x + w, y) (x + w, y + h) (px, py) = h * (x + w - px) := by
    simp [crossProd]; try ring
  have e3 : crossProd (x + w, y + h) (x, y + h) (px, py) = w * (y + h - py) := by
    simp [crossProd]; try ring
  have e4 : crossProd (x, y + h) (x, y) (px, py) = h * (px - x) := by
    simp [crossProd]; try ring
  have key : (0 ≤ pointPolygonTest (x, y) (x + w, y) (x + w, y + h) (x, y + h) (px, py)) ↔
      (0 ≤ w * (py - y) ∧ 0 ≤ h * (x + w - px) ∧ 0 ≤ w * (y + h - py) ∧ 0 ≤ h * (px - x)) := by
    unfold pointPolygonTest
    rw [e1, e2, e3, e4]
    split_ifs with hpos hnn
    · constructor
      · intro _
        exact ⟨le_of_lt hpos.1, le_of_lt hpos.2.1, le_of_lt hpos.2.2.1, le_of_lt hpos.2.2.2⟩
      · intro _
        norm_num
    · constructor
      · intro _
        exact hnn
      · intro _
        norm_num
    · constructor
      · intro habs
        norm_num at habs
      · intro hc
        exact absurd hc hnn
  have hiff : (point_inside (x, y, w, h) (px, py)).1 = true ↔
      0 ≤ pointPolygonTest (x, y) (x + w, y) (x + w, y + h) (x, y + h) (px, py) := by
    unfold point_inside
    split_ifs with hc
    · simpa using hc
    · simpa using hc
  rw [hiff, key]
  constructor
  · rintro ⟨h1, h2, h3, h4⟩
    refine ⟨?_, ?_, ?_, ?_⟩
    · by_contra hcon
      push_neg at hcon
      nlinarith [mul_pos hh (sub_pos.mpr hcon)]
    · by_contra hcon
      push_neg at hcon
      nlinarith [mul_pos hh (sub_pos.mpr hcon)]
    · by_contra hcon
      push_neg at hcon
      nlinarith [mul_pos hw (sub_pos.mpr hcon)]
    · by_contra hcon
      push_neg at hcon
      nlinarith [mul_pos hw (sub_pos.mpr hcon)]
  · rintro ⟨h1, h2, h3, h4⟩
    refine ⟨?_, ?_, ?_, ?_⟩
    · exact mul_nonneg (le_of_lt hw) (by linarith)
    · exact mul_nonneg (le_of_lt hh) (by linarith)
    · exact mul_nonneg (le_of_lt hw) (by linarith)
    · exact mul_nonneg (le_of_lt hh) (by linarith)

/-- Witness for C3 at a concrete rectangle and boundary point. -/
theorem point_inside_closed_rect_witness :
    ((0:ℚ) < 2 ∧ (0:ℚ) < 3)
    ∧ ((point_inside ((0:ℚ), (0:ℚ), (2:ℚ), (3:ℚ)) ((2:ℚ), (1:ℚ))).1 = true ↔
        (0:ℚ) ≤ 2 ∧ (2:ℚ) ≤ 0 + 2 ∧ (0:ℚ) ≤ 1 ∧ (1:ℚ) ≤ 0 + 3) :=
  ⟨by norm_num, point_inside_closed_rect 0 0 2 3 2 1 (by norm_num) (by norm_num)⟩

/-- C7 (counterexample): `calibrate` performs no range validation — the
parseable input `3/2`, outside [0,1], is accepted as the replacement
amplitude and returned once the following input is unparseable. -/
theorem calibrate_accepts_out_of_range :
    (calibrateRun (1/5) [some (3/2), none]).2 = some (3/2) ∧ ¬ ((3:ℚ)/2 ≤ 1) := by
  constructor
  · rfl
  · norm_num

/-- C7 (amended): `calibrate` accepts a replacement amplitude whenever the
input parses as a real number — with no range check — and on the first
unparseable or empty input exits returning the last accepted amplitude (the
initial amplitude if no parseable input was ever entered). -/
theorem calibrate_returns_last_parsed (amp : ℚ) (vs : List ℚ) (rest : List (Option ℚ)) :
    (calibrateRun amp (vs.map some ++ none :: rest)).2 = some (vs.getLastD amp) := by
  induction vs generalizing amp with
  | nil => rfl
  | cons a tl ih =>
    have h := ih a
    rw [List.map_cons, List.cons_append, List.getLastD_cons]
    exact h

/-- C10: whenever `calibrate` returns an amplitude, the buffer synthesized
from that amplitude was written in full to the audio device in the returning
iteration, before the terminating operator input was read: the event trace
ends with the write of the returned amplitude followed by the unparseable
read. -/
theorem calibrate_returned_amplitude_auditioned (amp : ℚ) (inputs : List (Option ℚ)) (r : ℚ)
    (h : (calibrateRun amp inputs).2 = some r) :
    ∃ t : List CalEvent,
      (calibrateRun amp inputs).1 = t ++ [CalEvent.write r, CalEvent.read none] := by
  induction inputs generalizing amp with
  | nil => simp [calibrateRun] at h
  | cons inp rest ih =>
    cases inp with
    | none =>
      have hr : amp = r := by simpa [calibrateRun] using h
      subst hr
      exact ⟨[], by simp [calibrateRun]⟩
    | some a =>
      obtain ⟨t, ht⟩ := ih a (by simpa [calibrateRun] using h)
      exact ⟨CalEvent.write amp :: CalEvent.read (some a) :: t, by simp [calibrateRun, ht]⟩

/-- Witness for C10 on a concrete input sequence. -/
theorem calibrate_returned_amplitude_auditioned_witness :
    (calibrateRun (1/5) [some (1/2), none]).2 = some (1/2)
    ∧ ∃ t : List CalEvent,
        (calibrateRun (1/5) [some (1/2), none]).1
          = t ++ [CalEvent.write (1/2), CalEvent.read none] :=
  ⟨rfl, calibrate_returned_amplitude_auditioned (1/5) [some (1/2), none] (1/2) rfl⟩

/-- Helper: every sample of `noise_generator` at sample rate 44100 lies in
[0, 1] when the amplitude and every noise value lie in [0, 1]. -/
theorem noiseGenSample_bounds (amp : ℚ) (duration : Nat) (noise : Nat → ℚ)
    (h0 : 0 ≤ amp) (h1 : amp ≤ 1) (hn : ∀ i, 0 ≤ noise i ∧ noise i ≤ 1) (i : Nat) :
    0 ≤ noiseGenSample amp duration 44100 noise i
    ∧ noiseGenSample amp duration 44100 noise i ≤ 1 := by
  obtain ⟨hn0, hn1⟩ := hn i
  unfold noiseGenSample
  split_ifs with hend hramp
  · have hcNat : 44100 * duration - 1 - i ≤ 11024 := by omega
    have hc : ((44100 * duration - 1 - i : Nat) : ℚ) ≤ 11024 := by exact_mod_cast hcNat
    have hc0 : (0:ℚ) ≤ ((44100 * duration - 1 - i : Nat) : ℚ) := Nat.cast_nonneg _
    have hw : ((44100 / 4 - 1 : Nat) : ℚ) = 11024 := by norm_num
    rw [hw]
    have hA0 : 0 ≤ amp * ((44100 * duration - 1 - i : Nat) : ℚ) / 11024 :=
      div_nonneg (mul_nonneg h0 hc0) (by norm_num)
    have hprod : amp * ((44100 * duration - 1 - i : Nat) : ℚ) ≤ 11024 := by
      have := mul_le_of_le_one_left hc0 h1
      linarith
    have hA1 : amp * ((44100 * duration - 1 - i : Nat) : ℚ) / 11024 ≤ 1 := by
      rw [div_le_one (by norm_num)]
      linarith
    constructor
    · exact mul_nonneg hA0 hn0
    · calc amp * ((44100 * duration - 1 - i : Nat) : ℚ) / 11024 * noise i
          ≤ amp * ((44100 * duration - 1 - i : Nat) : ℚ) / 11024 * 1 :=
            mul_le_mul_of_nonneg_left hn1 hA0
        _ = amp * ((44100 * duration - 1 - i : Nat) : ℚ) / 11024 := by ring
        _ ≤ 1 := hA1
  · have hcNat : i ≤ 11024 := by omega
    have hc : (i : ℚ) ≤ 11024 := by exact_mod_cast hcNat
    have hc0 : (0:ℚ) ≤ (i : ℚ) := Nat.cast_nonneg _
    have hw : ((44100 / 4 - 1 : Nat) : ℚ) = 11024 := by norm_num
    rw [hw]
    have hA0 : 0 ≤ amp * (i : ℚ) / 11024 := div_nonneg (mul_nonneg h0 hc0) (by norm_num)
    have hprod : amp * (i : ℚ) ≤ 11024 := by
      have := mul_le_of_le_one_left hc0 h1
      linarith
    have hA1 : amp * (i : ℚ) / 11024 ≤ 1 := by
      rw [div_le_one (by norm_num)]
      linarith
    constructor
    · exact mul_nonneg hA0 hn0
    · calc amp * (i : ℚ) / 11024 * noise i
          ≤ amp * (i : ℚ) / 11024 * 1 := mul_le_mul_of_nonneg_left hn1 hA0
        _ = amp * (i : ℚ) / 11024 := by ring
        _ ≤ 1 := hA1
  · constructor
    · exact mul_nonneg (mul_nonneg h0 hn0) hn0
    · calc amp * noise i * noise i ≤ amp * noise i * 1 :=
          mul_le_mul_of_nonneg_left hn1 (mul_nonneg h0 hn0)
      _ = amp * noise i := by ring
      _ ≤ amp * 1 := mul_le_mul_of_nonneg_left hn1 h0
      _ = amp := by ring
      _ ≤ 1 := h1

/-- Helper: the stimulus envelope lies between 0 and 1 when
`0 ≤ base ≤ peak ≤ 1`. -/
theorem waveEnvelope_bounds (base peak : ℚ) (hb0 : 0 ≤ base) (hbp : base ≤ peak)
    (hp1 : peak ≤ 1) (i : Nat) :
    0 ≤ waveEnvelope base peak i ∧ waveEnvelope base peak i ≤ 1 := by
  unfold waveEnvelope
  split_ifs with hlt
  · have hrNat : i % 44100 ≤ 17639 := by omega
    have hr : ((i % 44100 : Nat) : ℚ) ≤ 17639 := by exact_mod_cast hrNat
    have hr0 : (0:ℚ) ≤ ((i % 44100 : Nat) : ℚ) := Nat.cast_nonneg _
    have hd : (0:ℚ) ≤ peak - base := by linarith
    constructor
    · have : 0 ≤ ((i % 44100 : Nat) : ℚ) * (peak - base) / 17639 :=
        div_nonneg (mul_nonneg hr0 hd) (by norm_num)
      linarith
    · have h2 : ((i % 44100 : Nat) : ℚ) * (peak - base) / 17639 ≤ peak - base := by
        rw [div_le_iff₀ (by norm_num)]
        nlinarith
      linarith
  · exact ⟨hb0, by linarith⟩

/-- C5: for base ≤ peak the stimulus buffer has exactly `10 * 44100` samples
and its envelope is 44100-periodic (10 identical one-second segments), each
segment rising monotonically from `base` at sample 0 to `peak` at sample
17639 over the first `0.4 * fs = 17640` samples and staying constant at
`base` for the remaining `0.6 * fs = 26460` samples. -/
theorem wave_generator_shape (base peak : ℚ) (noise : Nat → ℚ) (hbp : base ≤ peak) :
    (waveGenList base peak noise).length = 10 * 44100
    ∧ (∀ s, s < 10 → ∀ i, i < 44100 →
        waveEnvelope base peak (s * 44100 + i) = waveEnvelope base peak i)
    ∧ (∀ s, s < 10 → ∀ i j, i ≤ j → j < 17640 →
        waveEnvelope base peak (s * 44100 + i) ≤ waveEnvelope base peak (s * 44100 + j))
    ∧ (∀ s, s < 10 → waveEnvelope base peak (s * 44100) = base
        ∧ waveEnvelope base peak (s * 44100 + 17639) = peak)
    ∧ (∀ s, s < 10 → ∀ i, 17640 ≤ i → i < 44100 →
        waveEnvelope base peak (s * 44100 + i) = base) := by
  refine ⟨?_, ?_, ?_, ?_, ?_⟩
  · unfold waveGenList
    rw [List.length_ofFn]
  · intro s hs i hi
    have hm : (s * 44100 + i) % 44100 = i % 44100 := by omega
    simp [waveEnvelope, hm]
  · intro s hs i j hij hj
    have hmi : (s * 44100 + i) % 44100 = i := by omega
    have hmj : (s * 44100 + j) % 44100 = j := by omega
    have hilt : i < 17640 := lt_of_le_of_lt hij hj
    simp only [waveEnvelope, hmi, hmj, if_pos hilt, if_pos hj]
    have hij2 : (i : ℚ) ≤ (j : ℚ) := by exact_mod_cast hij
    have hd : (0:ℚ) ≤ peak - base := by linarith
    have hmul := mul_le_mul_of_nonneg_right hij2 hd
    have h179 : (0:ℚ) ≤ 1 / 17639 := by norm_num
    have hmul2 := mul_le_mul_of_nonneg_right hmul h179
    have hdiv : (i : ℚ) * (peak - base) / 17639 ≤ (j : ℚ) * (peak - base) / 17639 := by
      calc (i : ℚ) * (peak - base) / 17639
          = (i : ℚ) * (peak - base) * (1 / 17639) := by ring
        _ ≤ (j : ℚ) * (peak - base) * (1 / 17639) := hmul2
        _ = (j : ℚ) * (peak - base) / 17639 := by ring
    linarith
  · intro s hs
    have hm0 : (s * 44100) % 44100 = 0 := by omega
    have hm1 : (s * 44100 + 17639) % 44100 = 17639 := by omega
    constructor
    · simp [waveEnvelope, hm0]
    · simp only [waveEnvelope, hm1, if_pos (by norm_num : (17639:Nat) < 17640)]
      push_cast
      field_simp
  · intro s hs i h17 hi
    have hm : (s * 44100 + i) % 44100 = i := by omega
    simp [waveEnvelope, hm, Nat.not_lt.mpr h17]

/-- Witness for C5 at the amplitudes the program starts calibration from. -/
theorem wave_generator_shape_witness :
    ((1:ℚ)/5 ≤ 7/10)
    ∧ ((waveGenList (1/5) (7/10) (fun j => 1)).length = 10 * 44100
      ∧ (∀ s, s < 10 → ∀ i, i < 44100 →
          waveEnvelope (1/5) (7/10) (s * 44100 + i) = waveEnvelope (1/5) (7/10) i)
      ∧ (∀ s, s < 10 → ∀ i j, i ≤ j → j < 17640 →
          waveEnvelope (1/5) (7/10) (s * 44100 + i) ≤ waveEnvelope (1/5) (7/10) (s * 44100 + j))
      ∧ (∀ s, s < 10 → waveEnvelope (1/5) (7/10) (s * 44100) = 1/5
          ∧ waveEnvelope (1/5) (7/10) (s * 44100 + 17639) = 7/10)
      ∧ (∀ s, s < 10 → ∀ i, 17640 ≤ i → i < 44100 →
          waveEnvelope (1/5) (7/10) (s * 44100 + i) = 1/5)) :=
  ⟨by norm_num, wave_generator_shape (1/5) (7/10) (fun j => 1) (by norm_num)⟩

/-- C8 (counterexample): the noise is Gaussian, hence unbounded, and the code
never clips — with noise value 2 everywhere and amplitude 1, sample 20000 of
the calibration background buffer `noise_generator(1, 5, 44100)` equals 4,
outside [-1, 1]. -/
theorem sample_bound_fails_unbounded_noise :
    noiseGenSample (1:ℚ) 5 44100 (fun j => 2) 20000 = 4
    ∧ ¬ (∀ x ∈ noiseGenList (1:ℚ) 5 44100 (fun j => 2), -1 ≤ x ∧ x ≤ 1) := by
  have hval : noiseGenSample (1:ℚ) 5 44100 (fun j => 2) 20000 = 4 := by
    norm_num [noiseGenSample]
  refine ⟨hval, ?_⟩
  intro hall
  have hmem : (4:ℚ) ∈ noiseGenList (1:ℚ) 5 44100 (fun j => 2) := by
    rw [← hval]
    unfold noiseGenList
    exact (List.mem_ofFn _ _).mpr ⟨⟨20000, by norm_num⟩, rfl⟩
  have hb := hall 4 hmem
  norm_num at hb

/-- C8 (amended): every sample of the background buffer and of the stimulus
buffer lies in [-1, 1] (indeed in [0, 1]) provided the calibrated amplitudes
lie in [0, 1] and every value of the noise component lies in [0, 1]. -/
theorem samples_bounded_of_bounded_noise (amp base peak : ℚ) (duration : Nat)
    (noiseA noiseB : Nat → ℚ)
    (h0 : 0 ≤ amp) (h1 : amp ≤ 1) (hb0 : 0 ≤ base) (hbp : base ≤ peak) (hp1 : peak ≤ 1)
    (hA : ∀ i, 0 ≤ noiseA i ∧ noiseA i ≤ 1) (hB : ∀ i, 0 ≤ noiseB i ∧ noiseB i ≤ 1) :
    (∀ x ∈ noiseGenList amp duration 44100 noiseA, -1 ≤ x ∧ x ≤ 1)
    ∧ (∀ x ∈ waveGenList base peak noiseB, -1 ≤ x ∧ x ≤ 1) := by
  constructor
  · intro x hx
    unfold noiseGenList at hx
    obtain ⟨i, hi⟩ := (List.mem_ofFn _ _).mp hx
    have hi2 : noiseGenSample amp duration 44100 noiseA i = x := hi
    obtain ⟨hlo, hhi⟩ := noiseGenSample_bounds amp duration noiseA h0 h1 hA i
    rw [← hi2]
    exact ⟨by linarith, hhi⟩
  · intro x hx
    unfold waveGenList at hx
    obtain ⟨i, hi⟩ := (List.mem_ofFn _ _).mp hx
    have hi2 : waveEnvelope base peak i * noiseB i = x := hi
    obtain ⟨he0, he1⟩ := waveEnvelope_bounds base peak hb0 hbp hp1 i
    obtain ⟨hn0, hn1⟩ := hB i
    have hlo : 0 ≤ waveEnvelope base peak i * noiseB i := mul_nonneg he0 hn0
    have hhi : waveEnvelope base peak i * noiseB i ≤ 1 := by
      calc waveEnvelope base peak i * noiseB i
          ≤ waveEnvelope base peak i * 1 := mul_le_mul_of_nonneg_left hn1 he0
        _ = waveEnvelope base peak i := by ring
        _ ≤ 1 := he1
    rw [← hi2]
    exact ⟨by linarith, hhi⟩

/-- Witness for the amended C8 at concrete amplitudes and constant noise. -/
theorem samples_bounded_of_bounded_noise_witness :
    ((0:ℚ) ≤ 1/2 ∧ (1:ℚ)/2 ≤ 1)
    ∧ ((∀ x ∈ noiseGenList ((1:ℚ)/2) 5 44100 (fun j => 1/2), -1 ≤ x ∧ x ≤ 1)
      ∧ (∀ x ∈ waveGenList ((1:ℚ)/5) (7/10) (fun j => 1/2), -1 ≤ x ∧ x ≤ 1)) :=
  ⟨by norm_num,
    samples_bounded_of_bounded_noise (1/2) (1/5) (7/10) 5 (fun j => 1/2) (fun j => 1/2)
      (by norm_num) (by norm_num) (by norm_num) (by norm_num) (by norm_num)
      (fun i => by norm_num) (fun i => by norm_num)⟩

/-- C9: the windowed background buffer begins and ends at the window-scaled
leading and trailing values, both exactly zero (the opening ramp starts at 0
and the closing ramp ends at 0), so splicing the buffer with itself has zero
discontinuity. -/
theorem background_window_splice (min_amp : ℝ) (noise : Nat → ℝ) :
    windowedBackground min_amp noise 0 = 0
    ∧ windowedBackground min_amp noise 2204999 = 0
    ∧ |windowedBackground min_amp noise 2204999 - windowedBackground min_amp noise 0| = 0 := by
  have h0 : windowedBackground min_amp noise 0 = 0 := by
    norm_num [windowedBackground, noiseGenSample]
  have h1 : windowedBackground min_amp noise 2204999 = 0 := by
    norm_num [windowedBackground, noiseGenSample]
  refine ⟨h0, h1, ?_⟩
  rw [h0, h1]
  simp

/-- Helper: the background worker either has performed `n` checks that all
read false (device open, one write per check), or it terminated right after
the first check that read true, having closed its device. -/
theorem playSound_progress (endSet : Nat → Bool) :
    ∀ n : Nat,
      ((playSoundStep endSet)^[n] bgInit = ⟨n, n, false, true⟩
        ∧ ∀ j, j < n → endSet j = false)
      ∨ (∃ m, m < n ∧ (∀ j, j < m → endSet j = false) ∧ endSet m = true
          ∧ (playSoundStep endSet)^[n] bgInit = ⟨m + 1, m, true, false⟩) := by
  intro n
  induction n with
  | zero =>
    left
    exact ⟨rfl, fun j hj => absurd hj (Nat.not_lt_zero j)⟩
  | succ k ih =>
    rw [Function.iterate_succ_apply']
    rcases ih with ⟨heq, hall⟩ | ⟨m, hm, hbefore, hset, heq⟩
    · rw [heq]
      by_cases hk : endSet k = true
      · right
        exact ⟨k, by omega, hall, hk, by simp [playSoundStep, hk]⟩
      · left
        have hk2 : endSet k = false := by simpa using hk
        constructor
        · simp [playSoundStep, hk2]
        · intro j hj
          rcases Nat.lt_succ_iff_lt_or_eq.mp hj with h | h
          · exact hall j h
          · subst h
            exact hk2
    · right
      refine ⟨m, by omega, hbefore, hset, ?_⟩
      rw [heq]
      simp [playSoundStep]

/-- C6 (counterexample): with the sticky end-session signal set from the very
start and no trigger ever pending, the stimulus worker is still blocked on
`play_stim.wait()` after 10 observation steps — it has not terminated and its
audio handle is still open, because `trigger_stim` consults `end_stream` only
after completing a trigger-playback cycle. -/
theorem stim_worker_no_trigger_never_terminates :
    ((triggerStimStep (fun j => false) (fun j => true))^[10] stimInit).terminated = false
    ∧ ((triggerStimStep (fun j => false) (fun j => true))^[10] stimInit).deviceOpen = true := by
  constructor <;> rfl

/-- C6 (amended): once the sticky end-session signal is set (from check `k`
on), the background worker terminates within one further buffer-write
duration — by check `k+1` it has terminated with its device released and at
most `k` writes performed — and a terminated background worker performs no
further writes.  The stimulus worker, by contrast, consults the end signal
only after completing a trigger-playback cycle: if a trigger is set at an
observation at or after `k` it terminates right after that playback with its
device released, but if no trigger is ever set it remains blocked waiting
forever — never terminated, device never released; once terminated it does
nothing further. -/
theorem audio_worker_shutdown (endSet trig : Nat → Bool) (k : Nat)
    (hk : ∀ j, k ≤ j → endSet j = true) :
    (∀ n, k + 1 ≤ n →
      ((playSoundStep endSet)^[n] bgInit).terminated = true
      ∧ ((playSoundStep endSet)^[n] bgInit).deviceOpen = false
      ∧ ((playSoundStep endSet)^[n] bgInit).writes ≤ k)
    ∧ (∀ s : BgState, s.terminated = true → playSoundStep endSet s = s)
    ∧ (∀ t p d, k ≤ t → trig t = true →
        triggerStimStep trig endSet ⟨t, p, false, d⟩ = ⟨t + 1, p + 1, true, false⟩)
    ∧ ((∀ j, trig j = false) →
        ∀ n, (triggerStimStep trig endSet)^[n] stimInit = ⟨n, 0, false, true⟩)
    ∧ (∀ s : StimState, s.terminated = true → triggerStimStep trig endSet s = s) := by
  refine ⟨?_, ?_, ?_, ?_, ?_⟩
  · intro n hn
    rcases playSound_progress endSet n with ⟨heq, hall⟩ | ⟨m, hm, hbefore, hset, heq⟩
    · have hkn : k < n := by omega
      have := hall k hkn
      rw [hk k le_rfl] at this
      exact absurd this (by simp)
    · have hmk : m ≤ k := by
        by_contra hcon
        push_neg at hcon
        have := hbefore k hcon
        rw [hk k le_rfl] at this
        exact absurd this (by simp)
      rw [heq]
      exact ⟨rfl, rfl, hmk⟩
  · intro s hs
    simp [playSoundStep, hs]
  · intro t p d htk htrig
    simp [triggerStimStep, htrig, hk t htk]
  · intro hnone n
    induction n with
    | zero => rfl
    | succ m ihm =>
      rw [Function.iterate_succ_apply', ihm]
      simp [triggerStimStep, hnone]
  · intro s hs
    simp [triggerStimStep, hs]

/-- Witness for the amended C6 with the end signal set from the start. -/
theorem audio_worker_shutdown_witness :
    (∀ j : Nat, 0 ≤ j → (fun j : Nat => true) j = true)
    ∧ ((∀ n, 0 + 1 ≤ n →
          ((playSoundStep (fun j : Nat => true))^[n] bgInit).terminated = true
          ∧ ((playSoundStep (fun j : Nat => true))^[n] bgInit).deviceOpen = false
          ∧ ((playSoundStep (fun j : Nat => true))^[n] bgInit).writes ≤ 0)
      ∧ (∀ s : BgState, s.terminated = true → playSoundStep (fun j : Nat => true) s = s)
      ∧ (∀ t p d, 0 ≤ t → (fun j : Nat => true) t = true →
          triggerStimStep (fun j : Nat => true) (fun j : Nat => true) ⟨t, p, false, d⟩
            = ⟨t + 1, p + 1, true, false⟩)
      ∧ ((∀ j, (fun j : Nat => true) j = false) →
          ∀ n, (triggerStimStep (fun j : Nat => true) (fun j : Nat => true))^[n] stimInit
            = ⟨n, 0, false, true⟩)
      ∧ (∀ s : StimState, s.terminated = true →
          triggerStimStep (fun j : Nat => true) (fun j : Nat => true) s = s)) :=
  ⟨fun j hj => rfl,
    audio_worker_shutdown (fun j : Nat => true) (fun j : Nat => true) 0 (fun j hj => rfl)⟩
